import Mathlib

/-
Verification of the wildfire ground-station controller (src/controller.py)
against its natural-language specification.

The controller is shallowly embedded: Python dicts/lists parsed from JSON
lines become the inductive type `J`; Python floats are modelled as exact
rationals; exceptions are modelled with `Except PyErr`; the shared mutable
state mutated under the lock becomes the record `Ctrl`, and each
message-arrival event becomes an explicit state-transition function.
-/

namespace WildfireSim

/-- A JSON value as produced by `json.loads` in `recv_lines`
    (controller.py).  Python floats are modelled as rationals. -/
inductive J where
  | null
  | bool (b : Bool)
  | num (q : ℚ)
  | str (s : String)
  | arr (xs : List J)
  | obj (fields : List (String × J))

/-- Python truthiness of a JSON value (`if not x`, `x or y`). -/
def J.truthy : J → Bool
  | .null => false
  | .bool b => b
  | .num q => decide (q ≠ 0)
  | .str s => decide (s ≠ "")
  | .arr xs => !xs.isEmpty
  | .obj fs => !fs.isEmpty

/-- First binding of a key in a Python dict, modelled as an
    association list (`d[k]` / `d.get(k)` lookup). -/
def lookupField : List (String × J) → String → Option J
  | [], _ => none
  | (k, v) :: rest, key => if k = key then some v else lookupField rest key

/-- The Python exception classes that can surface inside `evaluate`:
    `TypeError`, `ValueError`, `KeyError` (the three classes the
    `except` clause at the evaluation boundary catches) and
    `AttributeError` (raised by `x.get(...)` when `x` is not a dict;
    NOT caught by that clause). -/
inductive PyErr where
  | typeErr
  | valueErr
  | keyErr
  | attrErr
deriving DecidableEq, Repr

/-- Python `x.get(key, default)` for a message `x`: returns the stored value or
    the default when `x` is a dict; raises `AttributeError` when `x` is
    any other successfully-parsed JSON value (e.g. a list). -/
def dictGet (v : J) (key : String) (dflt : J) : Except PyErr J :=
  match v with
  | .obj fs =>
    match lookupField fs key with
    | some w => .ok w
    | none => .ok dflt
  | _ => .error .attrErr

/-- Python `int(v)`: truncates a float toward zero, parses an integer
    string, converts a bool; raises `TypeError`/`ValueError` otherwise. -/
def pyInt (v : J) : Except PyErr ℤ :=
  match v with
  | .num q => .ok (q.num / (q.den : ℤ))
  | .bool b => .ok (if b then 1 else 0)
  | .str s =>
    match s.toInt? with
    | some n => .ok n
    | none => .error .valueErr
  | _ => .error .typeErr

/-- Python `v or w` on JSON values. -/
def jOr (v w : J) : J := if v.truthy then v else w

/-- Python `opt or 0` on an optional integer (used for
    `last_thermal_rx_ns or 0`). -/
def orZero (x : Option ℤ) : ℤ := x.getD 0

/-- Python's builtin `max(a, b)` on two floats (first argument on ties). -/
def pyMaxQ (a b : ℚ) : ℚ := if a < b then b else a

/-- Python's builtin `max(a, b)` on two ints. -/
def pyMaxI (a b : ℤ) : ℤ := if a < b then b else a

/-- Python's builtin `min(a, b)` on two ints. -/
def pyMinI (a b : ℤ) : ℤ := if b < a then b else a

/-- Python's builtin `min(a, b)` on two floats. -/
def pyMinQ (a b : ℚ) : ℚ := if b < a then b else a

/-- Python's builtin `abs` on a float. -/
def pyAbs (q : ℚ) : ℚ := if q < 0 then -q else q

/- ── Configuration constants (controller.py, module top) ── -/

def TEMP_THRESHOLD : ℚ := 100
def TIME_WINDOW_S : ℚ := 2
def EXPECTED_THERMAL_HZ : ℚ := 2
def EXPECTED_IMAGERY_HZ : ℚ := 2
def MONITOR_WINDOW_S : ℚ := 10
def DROP_STOP_THRESHOLD : ℚ := 1/2

/-- Function `clamp01` (controller.py): clamp a drop-rate value to [0, 1]. -/
def clamp01 (x : ℚ) : ℚ := if x < 0 then 0 else if x > 1 then 1 else x

/-- Function `prune_old` (controller.py): pop timestamps from the front of the
    arrivals deque while they are older than `now_s - window_s`.  The
    deque is modelled front-first as a list. -/
def prune_old (arrivals : List ℚ) (now_s window_s : ℚ) : List ℚ :=
  arrivals.dropWhile (fun a => decide (a < now_s - window_s))

/-- The value of the Python variable `max_temp`: either a genuine float
    or the sentinel `float("-inf")`. -/
inductive TVal where
  | negInf
  | val (q : ℚ)
deriving DecidableEq, Repr

/-- Comparison `max_temp > threshold` with `-inf` below every threshold. -/
def TVal.gtQ : TVal → ℚ → Bool
  | .negInf, _ => false
  | .val q, t => decide (q > t)

/-- Maximum of a Python list of floats; `none` models the
    `ValueError` Python raises on an empty sequence. -/
def listMax : List ℚ → Option ℚ
  | [] => none
  | x :: xs => some (xs.foldl pyMaxQ x)

/-- All elements of a Python list viewed as numbers, if they all are
    (mixed element types make Python `max` raise `TypeError`). -/
def allNums : List J → Option (List ℚ)
  | [] => some []
  | .num q :: rest => (allNums rest).map (fun qs => q :: qs)
  | _ => none

/-- Python `max(xs)` over a list of JSON values: `ValueError` on an
    empty list, `TypeError` unless the elements are (comparable)
    numbers. -/
def pyMax (xs : List J) : Except PyErr ℚ :=
  match xs with
  | [] => .error .valueErr
  | _ =>
    match allNums xs with
    | some qs =>
      match listMax qs with
      | some m => .ok m
      | none => .error .valueErr
    | none => .error .typeErr

/-- The generator `(max(row) for row in thermal_data if row)` inside
    `safe_max_temp`: per-row maxima of the truthy rows, with the first
    Python error raised while iterating. -/
def rowMaxes : List J → Except PyErr (List ℚ)
  | [] => .ok []
  | r :: rs =>
    if r.truthy then
      match r with
      | .arr elems =>
        match pyMax elems with
        | .ok m => (rowMaxes rs).map (fun ms => m :: ms)
        | .error e => .error e
      | _ => .error .typeErr
    else
      rowMaxes rs

/-- Function `safe_max_temp` (controller.py): handle a 2-D grid or a 1-D list,
    returning `(max_temp, shape_str)`; propagates the Python errors the
    real function can raise (`max()` of an empty generator when every
    row of a 2-D grid is empty; `TypeError` on non-numeric rows). -/
def safe_max_temp (thermal_data : J) : Except PyErr (TVal × String) :=
  match thermal_data with
  | .null => .ok (.negInf, "none")
  | .arr (x :: xs) =>
    match x with
    | .arr firstRow =>
      match rowMaxes (x :: xs) with
      | .error e => .error e
      | .ok ms =>
        match listMax ms with
        | none => .error .valueErr
        | some m =>
          .ok (.val m, toString (x :: xs).length ++ "x" ++ toString firstRow.length)
    | _ =>
      match pyMax (x :: xs) with
      | .error e => .error e
      | .ok m => .ok (.val m, "1d:" ++ toString (x :: xs).length)
  | .arr [] => .ok (.negInf, "1d:0")
  | _ => .ok (.negInf, "unknown")

/-- One detection entry `d` passes `isinstance(d, dict) and
    d.get("label") == "fire"`. -/
def isFireDet : J → Bool
  | .obj fs =>
    match lookupField fs "label" with
    | some (.str s) => s == "fire"
    | _ => false
  | _ => false

/-- Function `imagery_has_fire` (controller.py). -/
def imagery_has_fire (dets : J) : Bool :=
  if !dets.truthy then false
  else
    match dets with
    | .arr l => l.any isFireDet
    | _ => false

/- ── Fusion engine (`evaluate`, controller.py) ── -/

/-- One line of the Phase-3 JSONL log (`latency_log.jsonl`): the record
    dict built inside `evaluate`.  `thermal_seq`/`imagery_seq` hold the
    raw JSON value of `t.get("seq")` (`J.null` when absent). -/
structure FusionRec where
  fusion_id : ℕ
  fusion_done_ns : ℤ
  thermal_seq : J
  imagery_seq : J
  thermal_tx_ns : ℤ
  imagery_tx_ns : ℤ
  thermal_rx_ns : ℤ
  imagery_rx_ns : ℤ
  thermal_proc_ns : ℤ
  imagery_proc_ns : ℤ
  thermal_net_ns : ℤ
  imagery_net_ns : ℤ
  fusion_proc_ns : ℤ
  dt_s : ℚ
  max_temp : TVal
  imagery_fire : Bool
  decision : Bool
  thermal_shape : String
  num_detections : ℕ
  e2e_ns : ℤ
  e2e_ms : ℚ

/-- One data row of the Phase-1/2 CSV log (`fusion_log.csv`).  The
    `utc_iso` column is kept as the nanosecond timestamp it renders. -/
structure CsvRow where
  fusion_id : ℕ
  iso_ns : ℤ
  dt_s : ℚ
  max_temp : TVal
  imagery_fire : Bool
  decision : Bool
  thermal_shape : String
  num_detections : ℕ

/-- The controller's shared mutable state relevant to fusion: the
    module-level globals `last_thermal`, `last_imagery`,
    `last_thermal_rx_ns`, `last_imagery_rx_ns`, `fusion_id`, and the
    contents of the two output logs. -/
structure Ctrl where
  last_thermal : Option J
  last_imagery : Option J
  last_thermal_rx_ns : Option ℤ
  last_imagery_rx_ns : Option ℤ
  fusion_id : ℕ
  csv : List CsvRow
  jsonl : List FusionRec

/-- The startup state: empty feeds, `fusion_id = 0`, empty logs. -/
def initCtrl : Ctrl := ⟨none, none, none, none, 0, [], []⟩

/-- The body of the `try:` block in `evaluate` (controller.py lines
    141–219), from the first field access to the fully built record;
    statements are sequenced in source order so that the first Python
    exception raised is the one modelled.  `fusion_start_ns` and
    `fusion_end_ns` are the two clock reads. -/
def fusionBody (fid : ℕ) (t i : J) (trxOpt irxOpt : Option ℤ)
    (fusion_start_ns fusion_end_ns : ℤ) : Except PyErr FusionRec := do
  let tTxRaw ← dictGet t "tx_ns" (.num 0)
  let t_tx0 ← pyInt (jOr tTxRaw (.num 0))
  let iTxRaw ← dictGet i "tx_ns" (.num 0)
  let i_tx0 ← pyInt (jOr iTxRaw (.num 0))
  let t_tx := if t_tx0 ≤ 0 then orZero trxOpt else t_tx0
  let i_tx := if i_tx0 ≤ 0 then orZero irxOpt else i_tx0
  let dt_s : ℚ := pyAbs (((t_tx - i_tx : ℤ) : ℚ)) / 1000000000
  let tData ← dictGet t "data" .null
  let ms ← safe_max_temp tData
  let dets ← dictGet i "detections" (.arr [])
  let fire := imagery_has_fire dets
  let decision := ms.1.gtQ TEMP_THRESHOLD && fire && decide (dt_s ≤ TIME_WINDOW_S)
  let tProcRaw ← dictGet t "proc_ns" (.num 0)
  let thermal_proc_ns ← pyInt (jOr tProcRaw (.num 0))
  let iProcRaw ← dictGet i "proc_ns" (.num 0)
  let imagery_proc_ns ← pyInt (jOr iProcRaw (.num 0))
  let thermal_rx_ns := orZero trxOpt
  let imagery_rx_ns := orZero irxOpt
  let thermal_net_ns := pyMaxI 0 (thermal_rx_ns - t_tx)
  let imagery_net_ns := pyMaxI 0 (imagery_rx_ns - i_tx)
  let fusion_proc_ns := fusion_end_ns - fusion_start_ns
  let e2e_ns := fusion_end_ns - pyMinI t_tx i_tx
  let e2e_ms : ℚ := (e2e_ns : ℚ) / 1000000
  let num_dets := match dets with | .arr l => l.length | _ => 0
  let thermal_seq ← dictGet t "seq" .null
  let imagery_seq ← dictGet i "seq" .null
  return { fusion_id := fid
           fusion_done_ns := fusion_end_ns
           thermal_seq := thermal_seq
           imagery_seq := imagery_seq
           thermal_tx_ns := t_tx
           imagery_tx_ns := i_tx
           thermal_rx_ns := thermal_rx_ns
           imagery_rx_ns := imagery_rx_ns
           thermal_proc_ns := thermal_proc_ns
           imagery_proc_ns := imagery_proc_ns
           thermal_net_ns := thermal_net_ns
           imagery_net_ns := imagery_net_ns
           fusion_proc_ns := fusion_proc_ns
           dt_s := dt_s
           max_temp := ms.1
           imagery_fire := fire
           decision := decision
           thermal_shape := ms.2
           num_detections := num_dets
           e2e_ns := e2e_ns
           e2e_ms := e2e_ms }

/-- What one call to `evaluate` did. -/
inductive EvalOutcome where
  | noop
  | caught (e : PyErr)
  | uncaught (e : PyErr)
  | success (rec : FusionRec)

/-- The CSV row `evaluate` writes for a record (same local variables as
    the JSONL record). -/
def csvOf (rec : FusionRec) : CsvRow :=
  ⟨rec.fusion_id, rec.fusion_done_ns, rec.dt_s, rec.max_temp,
   rec.imagery_fire, rec.decision, rec.thermal_shape, rec.num_detections⟩

/-- Function `evaluate` (controller.py): no-op unless both stored messages are
    truthy; on success appends one CSV row and one JSONL record and
    increments `fusion_id`; `KeyError`/`TypeError`/`ValueError` are
    caught at the boundary (state unchanged); any other exception
    (`AttributeError`) propagates out of `evaluate` uncaught. -/
def evaluate (fusion_start_ns fusion_end_ns : ℤ) (s : Ctrl) : Ctrl × EvalOutcome :=
  match s.last_thermal, s.last_imagery with
  | some t, some i =>
    if !t.truthy || !i.truthy then (s, .noop)
    else
      match fusionBody s.fusion_id t i s.last_thermal_rx_ns s.last_imagery_rx_ns
              fusion_start_ns fusion_end_ns with
      | .ok rec =>
        ({ s with fusion_id := s.fusion_id + 1
                  csv := s.csv ++ [csvOf rec]
                  jsonl := s.jsonl ++ [rec] }, .success rec)
      | .error e =>
        if e = .attrErr then (s, .uncaught e) else (s, .caught e)
  | _, _ => (s, .noop)

/-- A message-arrival event: the parsed message, its arrival timestamp,
    and the two clock reads taken inside the triggered `evaluate`. -/
inductive Event where
  | thermalMsg (msg : J) (rx_ns fusion_start_ns fusion_end_ns : ℤ)
  | imageryMsg (msg : J) (rx_ns fusion_start_ns fusion_end_ns : ℤ)

/-- Callback `on_msg` in `handle_thermal` / `handle_imagery` (controller.py):
    store the message and its arrival time, then run `evaluate`, all
    under the lock. -/
def step (s : Ctrl) : Event → Ctrl × EvalOutcome
  | .thermalMsg msg rx sns ens =>
    evaluate sns ens { s with last_thermal := some msg, last_thermal_rx_ns := some rx }
  | .imageryMsg msg rx sns ens =>
    evaluate sns ens { s with last_imagery := some msg, last_imagery_rx_ns := some rx }

/-- Run a sequence of message-arrival events from a starting state. -/
def run (s : Ctrl) : List Event → Ctrl
  | [] => s
  | e :: es => run (step s e).1 es

/- ── Health monitor (`_stream_drop_stats`, `monitoring_thread`) ── -/

/-- Function `_stream_drop_stats` (controller.py).  Returns
    `((drop_rate?, recv_count, expected_count), arrivals_after_prune)`;
    the pruned deque is returned explicitly because the Python function
    mutates the deque in place. -/
def stream_drop_stats (arrivals : List ℚ) (expected_hz : ℚ)
    (first_seen_s : Option ℚ) (now_s window_s : ℚ) :
    (Option ℚ × ℚ × ℚ) × List ℚ :=
  match first_seen_s with
  | none => ((none, 0, 0), arrivals)
  | some fs =>
    let effective_window := pyMinQ window_s (pyMaxQ 0 (now_s - fs))
    if effective_window ≤ 0 then ((none, 0, 0), arrivals)
    else
      let pruned := prune_old arrivals now_s window_s
      let recv_count : ℚ := pruned.length
      let expected_count := expected_hz * effective_window
      if expected_count ≤ 0 then ((none, recv_count, expected_count), pruned)
      else ((some (clamp01 (1 - recv_count / expected_count)), recv_count, expected_count), pruned)

/-- Side effects the degraded-stop path of `monitoring_thread`
    performs, in order: `logfile.close()` and the `sys.exit(2)` call.
    `sysExitCall code` is the call itself — it raises
    `SystemExit(code)` in the calling thread; whether the process
    actually exits with that status depends on which thread runs it
    (see `exitsProcess`). -/
inductive Effect where
  | closeLog
  | sysExitCall (code : ℕ)
deriving DecidableEq, Repr

/-- Test `drop is not None and drop > DROP_STOP_THRESHOLD`. -/
def dropExceeds (d : Option ℚ) : Bool :=
  match d with
  | none => false
  | some x => decide (x > DROP_STOP_THRESHOLD)

/-- The stop-enforcement tail of one monitor-loop iteration
    (controller.py lines 360–375): thermal feed checked first; on a
    trigger the log handle is closed and `sys.exit(2)` is called (the
    later checks are unreachable because `SystemExit` propagates out of
    the loop). -/
def monitor_enforce (thermal_server_up : Bool) (t_drop : Option ℚ)
    (imagery_server_up : Bool) (i_drop : Option ℚ) : List Effect :=
  if thermal_server_up && dropExceeds t_drop then [.closeLog, .sysExitCall 2]
  else if imagery_server_up && dropExceeds i_drop then [.closeLog, .sysExitCall 2]
  else []

/-- Monitor-visible state of one feed. -/
structure FeedMon where
  arrivals : List ℚ
  first_seen_s : Option ℚ
  server_up : Bool

/-- One full iteration of the `monitoring_thread` loop: compute both
    feeds' drop stats under the lock, then enforce the stop condition. -/
def monitor_tick (thermal imagery : FeedMon) (now_s : ℚ) : List Effect :=
  let t := stream_drop_stats thermal.arrivals EXPECTED_THERMAL_HZ
             thermal.first_seen_s now_s MONITOR_WINDOW_S
  let i := stream_drop_stats imagery.arrivals EXPECTED_IMAGERY_HZ
             imagery.first_seen_s now_s MONITOR_WINDOW_S
  monitor_enforce thermal.server_up t.1.1 imagery.server_up i.1.1

/-- The exit status a `sys.exit` call would carry, if this effect is
    one. -/
def exitCodeOf : Effect → Option ℕ
  | .sysExitCall c => some c
  | _ => none

/-- Modelled from CPython's threading semantics (runtime behaviour, not
    repository code): `sys.exit(code)` raises `SystemExit`; when that
    exception reaches the top of the MAIN thread the interpreter exits
    with the given status, but in any other thread the `threading`
    module's default excepthook silently swallows `SystemExit`,
    terminating only that thread — the process keeps running and no
    exit status is produced.  Returns the process exit status, if any,
    of running the given effect list in a thread. -/
def exitsProcess (inMainThread : Bool) (effects : List Effect) : Option ℕ :=
  if inMainThread then
    match effects.filterMap exitCodeOf with
    | c :: _ => some c
    | [] => none
  else
    none

/-- The monitoring thread is started as a daemon thread, not the main
    thread (controller.py line 405:
    `threading.Thread(target=monitoring_thread, daemon=True).start()`;
    the main thread sits in the `while True: time.sleep(1)` loop). -/
def monitorInMainThread : Bool := false

/- ── Derived sync gap (spec §4.2 step 6; analyze_latency.py) ── -/

/-- The measured latency components of a FusionRecord, in
    milliseconds, exactly as the downstream consumer
    (analyze_latency.py) sums them from the stored fields. -/
def measured_ms (r : FusionRec) : ℚ :=
  (r.thermal_proc_ns : ℚ) / 1000000 + (r.imagery_proc_ns : ℚ) / 1000000
    + (r.thermal_net_ns : ℚ) / 1000000 + (r.imagery_net_ns : ℚ) / 1000000
    + (r.fusion_proc_ns : ℚ) / 1000000

/-- The derived `sync_gap = max(0, e2e_ms - measured_ms)`, computed from a
    FusionRecord's stored fields (analyze_latency.py / spec §4.2). -/
def sync_gap_ms (r : FusionRec) : ℚ := pyMaxQ 0 (r.e2e_ms - measured_ms r)

/- ── Stream listener (`recv_lines`, controller.py) ── -/

/-- The whitespace characters `str.strip()` removes. -/
def isPyWS (c : Char) : Bool :=
  c = ' ' || c = '\t' || c = '\n' || c = '\r' || c = '\x0b' || c = '\x0c'

/-- Python `line.strip()` on a buffered line (modelled as chars). -/
def stripChars (l : List Char) : List Char :=
  ((l.dropWhile isPyWS).reverse.dropWhile isPyWS).reverse

/-- Python `buf.split("\n", 1)`: the text before the first newline and the
    text after it, or `none` when the buffer holds no newline. -/
def splitFirstNL : List Char → Option (List Char × List Char)
  | [] => none
  | c :: cs =>
    if c = '\n' then some ([], cs)
    else (splitFirstNL cs).map (fun p => (c :: p.1, p.2))

/-- The per-line body of the inner `while "\n" in buf` loop: strip the
    line, skip it when empty, try to parse it, silently discard it when
    `json.loads` fails.  `parse` models `json.loads` on a complete
    line. -/
def lineMsg (parse : List Char → Option J) (line : List Char) : Option J :=
  let l := stripChars line
  if l.isEmpty then none else parse l

theorem splitFirstNL_some {buf line rest : List Char}
    (h : splitFirstNL buf = some (line, rest)) :
    buf = line ++ '\n' :: rest ∧ '\n' ∉ line := by
  induction buf generalizing line rest with
  | nil => simp [splitFirstNL] at h
  | cons c cs ih =>
    by_cases hc : c = '\n'
    · subst hc
      simp [splitFirstNL] at h
      obtain ⟨h1, h2⟩ := h
      subst h1
      subst h2
      simp
    · simp only [splitFirstNL, if_neg hc, Option.map_eq_some'] at h
      obtain ⟨⟨a, b⟩, hab, heq⟩ := h
      rw [Prod.mk.injEq] at heq
      obtain ⟨h1, h2⟩ := heq
      subst h1
      subst h2
      obtain ⟨hb, hnin⟩ := ih hab
      subst hb
      refine ⟨by simp, ?_⟩
      intro hmem
      rcases List.mem_cons.mp hmem with h | h
      · exact hc h.symm
      · exact hnin h

theorem splitFirstNL_length {buf line rest : List Char}
    (h : splitFirstNL buf = some (line, rest)) : rest.length < buf.length := by
  obtain ⟨hb, -⟩ := splitFirstNL_some h
  subst hb
  simp
  omega

/-- The inner `while "\n" in buf:` loop of `recv_lines`: extract every
    complete line from the buffer, deliver the messages of the
    well-formed non-empty ones in order, keep the unterminated tail as
    the new buffer. -/
def drain (parse : List Char → Option J) (buf : List Char) : List Char × List J :=
  match h : splitFirstNL buf with
  | none => (buf, [])
  | some (line, rest) =>
    let r := drain parse rest
    (r.1, (lineMsg parse line).toList ++ r.2)
termination_by buf.length
decreasing_by exact splitFirstNL_length h

/-- The outer `while True:` loop of `recv_lines`: append each received
    chunk to the buffer and drain complete lines; at end-of-stream the
    handler returns, discarding any unterminated tail.  Returns the
    final buffer and every message delivered to the callback, in
    order. -/
def recvChunks (parse : List Char → Option J) :
    List Char → List (List Char) → List Char × List J
  | buf, [] => (buf, [])
  | buf, c :: cs =>
    let d := drain parse (buf ++ c)
    let r := recvChunks parse d.1 cs
    (r.1, d.2 ++ r.2)

/-- The messages `recv_lines` delivers over a connection, each paired
    with its arrival timestamp: `utc_ns()` is called once per parsed
    message immediately before `on_msg`, so the n-th delivered message
    carries the n-th clock reading. -/
def recvDelivered (parse : List Char → Option J) (clock : ℕ → ℤ)
    (chunks : List (List Char)) : List (J × ℤ) :=
  ((recvChunks parse [] chunks).2.enum).map (fun p => (p.2, clock p.1))

/- ── Concrete test vectors used by witnesses and counterexamples ── -/

/-- A well-formed thermal message: 2×2 grid with max 150 °C (one row
    empty), sent at t = 1 s. -/
def tMsgC : J :=
  .obj [("tx_ns", .num 1000000000), ("proc_ns", .num 0), ("seq", .num 1),
        ("data", .arr [.arr [.num 150, .num 20], .arr []])]

/-- A well-formed imagery message with one fire detection, sent at
    t = 1 s. -/
def iMsgC : J :=
  .obj [("tx_ns", .num 1000000000),
        ("detections", .arr [.obj [("label", .str "fire")]])]

/-- Controller state holding both test messages, both received at
    t = 3 s (2 s of network delay on each feed). -/
def sGoodC : Ctrl :=
  ⟨some tMsgC, some iMsgC, some 3000000000, some 3000000000, 0, [], []⟩

/-- State whose stored thermal message is valid JSON but not an object
    (the list `[1]`). -/
def sBadC : Ctrl :=
  ⟨some (.arr [.num 1]), some iMsgC, some 3000000000, some 3000000000, 0, [], []⟩

/-- State whose stored thermal message is the empty JSON object. -/
def sEmptyObjC : Ctrl :=
  ⟨some (.obj []), some iMsgC, some 3000000000, some 3000000000, 0, [], []⟩

/-- The record produced by evaluating `sGoodC` with the fusion clock
    reading 3000000000 ns before and 3000000001 ns after. -/
def recC : FusionRec :=
  ⟨0, 3000000001, .num 1, .null, 1000000000, 1000000000, 3000000000, 3000000000,
   0, 0, 2000000000, 2000000000, 1, 0, .val 150, true, true, "2x2", 1,
   2000000001, 2000000001 / 1000000⟩

/-- The state after the successful evaluation of `sGoodC`. -/
def sGoodAfterC : Ctrl :=
  ⟨some tMsgC, some iMsgC, some 3000000000, some 3000000000, 1, [csvOf recC], [recC]⟩

/-- An all-zero FusionRecord (components sum to exactly e2e). -/
def recZ : FusionRec :=
  ⟨0, 0, .null, .null, 0, 0, 0, 0, 0, 0, 0, 0, 0, 0, .negInf, false, false,
   "none", 0, 0, 0⟩

/-- State whose thermal payload is a 2-D grid with all rows empty and
    whose imagery message is a truthy object. -/
def sAllEmptyRowsC : Ctrl :=
  ⟨some (.obj [("data", .arr [.arr []])]), some (.obj [("detections", .arr [])]),
   none, none, 0, [], []⟩

/-- Monitor state of a feed that started at t = 0 s and received one
    message at t = 4 s, seen from a tick at t = 5 s: 90 % drop. -/
def tMonC : FeedMon := ⟨[4], some 0, true⟩

/-- Monitor state of a feed that never started, with its server up. -/
def iMonC : FeedMon := ⟨[], none, true⟩

/-- A concrete stand-in for `json.loads` on a stripped line: parses the
    line "ok" to the JSON number 1 and rejects everything else. -/
def parseC : List Char → Option J :=
  fun l => if l = ['o', 'k'] then some (J.num 1) else none

/-- A connection byte stream carrying "ok\nbad\nok\n" chopped into two
    chunks that split mid-line. -/
def chunksC : List (List Char) :=
  [['o', 'k', '\n', 'b'], ['a', 'd', '\n', 'o', 'k', '\n']]

/- ════════════════════════ Theorems ════════════════════════ -/

/- ── Helper lemmas on Python max ── -/

theorem le_pyMaxQ_left (a b : ℚ) : a ≤ pyMaxQ a b := by
  unfold pyMaxQ
  split
  · linarith
  · exact le_refl a

theorem le_pyMaxQ_right (a b : ℚ) : b ≤ pyMaxQ a b := by
  unfold pyMaxQ
  split
  · exact le_refl b
  · linarith

theorem foldl_pyMaxQ_le (xs : List ℚ) (a : ℚ) :
    a ≤ xs.foldl pyMaxQ a ∧ ∀ y ∈ xs, y ≤ xs.foldl pyMaxQ a := by
  induction xs generalizing a with
  | nil => exact ⟨le_refl a, by simp⟩
  | cons x xs ih =>
    obtain ⟨h1, h2⟩ := ih (pyMaxQ a x)
    refine ⟨le_trans (le_pyMaxQ_left a x) h1, ?_⟩
    intro y hy
    rcases List.mem_cons.mp hy with rfl | hy
    · exact le_trans (le_pyMaxQ_right a y) h1
    · exact h2 y hy

theorem foldl_pyMaxQ_mem (xs : List ℚ) (a : ℚ) :
    xs.foldl pyMaxQ a = a ∨ xs.foldl pyMaxQ a ∈ xs := by
  induction xs generalizing a with
  | nil => exact Or.inl rfl
  | cons x xs ih =>
    rcases ih (pyMaxQ a x) with h | h
    · rw [List.foldl_cons, h]
      unfold pyMaxQ
      split
      · exact Or.inr (List.mem_cons_self x xs)
      · exact Or.inl rfl
    · exact Or.inr (List.mem_cons_of_mem x (by rw [List.foldl_cons]; exact h))

theorem listMax_eq_some {l : List ℚ} {m : ℚ} (h : listMax l = some m) :
    m ∈ l ∧ ∀ y ∈ l, y ≤ m := by
  match l with
  | [] => simp [listMax] at h
  | x :: xs =>
    simp only [listMax, Option.some.injEq] at h
    subst h
    constructor
    · rcases foldl_pyMaxQ_mem xs x with h | h
      · rw [h]; exact List.mem_cons_self x xs
      · exact List.mem_cons_of_mem x h
    · intro y hy
      rcases List.mem_cons.mp hy with rfl | hy
      · exact (foldl_pyMaxQ_le xs y).1
      · exact (foldl_pyMaxQ_le xs x).2 y hy

theorem listMax_of_ne_nil {l : List ℚ} (h : l ≠ []) :
    ∃ m, listMax l = some m ∧ m ∈ l ∧ ∀ y ∈ l, y ≤ m := by
  match l with
  | [] => exact absurd rfl h
  | x :: xs => exact ⟨xs.foldl pyMaxQ x, rfl, listMax_eq_some rfl⟩

theorem allNums_map_num (xs : List ℚ) : allNums (xs.map J.num) = some xs := by
  induction xs with
  | nil => rfl
  | cons x xs ih => simp [allNums, ih]

theorem truthy_arr (xs : List J) : (J.arr xs).truthy = !xs.isEmpty := rfl

theorem pyMax_map_num (x : ℚ) (xs : List ℚ) :
    pyMax (J.num x :: xs.map J.num) = .ok (xs.foldl pyMaxQ x) := by
  have h := allNums_map_num (x :: xs)
  simp only [List.map_cons] at h
  simp [pyMax, h, listMax]

/-- Row encoding: a Lean list of rationals as the JSON row Python sees. -/
theorem rowMaxes_map_num (rows : List (List ℚ)) :
    rowMaxes (rows.map (fun r => J.arr (r.map J.num)))
      = .ok (rows.filterMap listMax) := by
  induction rows with
  | nil => rfl
  | cons r rest ih =>
    match r with
    | [] =>
      simp only [List.map_cons, List.map_nil, List.filterMap_cons]
      simp [rowMaxes, truthy_arr, ih, listMax]
    | x :: xs =>
      simp only [List.map_cons, List.filterMap_cons]
      simp [rowMaxes, truthy_arr, pyMax_map_num, ih, listMax, Except.map]

theorem join_filterMap_listMax (rows : List (List ℚ)) (h : rows.flatten ≠ []) :
    ∃ m, listMax (rows.filterMap listMax) = some m ∧ m ∈ rows.flatten
      ∧ ∀ y ∈ rows.flatten, y ≤ m := by
  have hne : rows.filterMap listMax ≠ [] := by
    obtain ⟨y, hy⟩ := List.exists_mem_of_ne_nil _ h
    obtain ⟨row, hrow, hyrow⟩ := List.mem_flatten.mp hy
    intro hnil
    have hnone := List.filterMap_eq_nil_iff.mp hnil row hrow
    obtain ⟨m, hm, -⟩ := listMax_of_ne_nil (List.ne_nil_of_mem hyrow)
    rw [hm] at hnone
    exact Option.noConfusion hnone
  obtain ⟨M, hM, hMmem, hMbound⟩ := listMax_of_ne_nil hne
  obtain ⟨row, hrow, hrowM⟩ := List.mem_filterMap.mp hMmem
  refine ⟨M, hM, List.mem_flatten.mpr ⟨row, hrow, (listMax_eq_some hrowM).1⟩, ?_⟩
  intro y hy
  obtain ⟨row2, hrow2, hyrow2⟩ := List.mem_flatten.mp hy
  obtain ⟨m2, hm2, -, hbound2⟩ := listMax_of_ne_nil (List.ne_nil_of_mem hyrow2)
  have hmem2 : m2 ∈ rows.filterMap listMax := List.mem_filterMap.mpr ⟨row2, hrow2, hm2⟩
  exact le_trans (hbound2 y hyrow2) (hMbound m2 hmem2)

/- ── C2: safe_max_temp ── -/

/-- C2 (corrected): as the claim states it, a 2-D payload all of whose
    rows are empty yields negative infinity; in the code
    `max(max(row) for row in thermal_data if row)` raises `ValueError`
    on such a payload because the filtered generator is empty.
    Concretely `safe_max_temp([[]])` raises instead of returning
    `(-inf, "1x0")`. -/
theorem c2_counterexample :
    safe_max_temp (.arr [.arr []]) = .error .valueErr := rfl

/-- C2 (amended): `safe_max_temp` returns the maximum over all cells of
    all non-empty rows for a 2-D payload with at least one non-empty
    row, the maximum for a non-empty 1-D payload, and negative infinity
    for an absent (`None`), empty (`[]`), or non-list payload; but a
    2-D payload whose rows are ALL empty raises `ValueError` (later
    caught at the evaluation boundary) instead of returning negative
    infinity. -/
theorem c2_safe_max_temp :
    safe_max_temp .null = .ok (.negInf, "none")
    ∧ (∀ q, safe_max_temp (.num q) = .ok (.negInf, "unknown"))
    ∧ (∀ s, safe_max_temp (.str s) = .ok (.negInf, "unknown"))
    ∧ (∀ b, safe_max_temp (.bool b) = .ok (.negInf, "unknown"))
    ∧ (∀ fs, safe_max_temp (.obj fs) = .ok (.negInf, "unknown"))
    ∧ safe_max_temp (.arr []) = .ok (.negInf, "1d:0")
    ∧ (∀ (x : ℚ) (xs : List ℚ), ∃ m,
        safe_max_temp (.arr ((x :: xs).map J.num))
          = .ok (.val m, "1d:" ++ toString (x :: xs).length)
        ∧ m ∈ x :: xs ∧ ∀ y ∈ x :: xs, y ≤ m)
    ∧ (∀ (r0 : List ℚ) (rest : List (List ℚ)),
        (r0 :: rest).flatten ≠ [] → ∃ m,
        safe_max_temp (.arr ((r0 :: rest).map (fun r => J.arr (r.map J.num))))
          = .ok (.val m, toString (r0 :: rest).length ++ "x" ++ toString r0.length)
        ∧ m ∈ (r0 :: rest).flatten ∧ ∀ y ∈ (r0 :: rest).flatten, y ≤ m)
    ∧ (∀ (rows : List (List ℚ)), rows ≠ [] → (∀ r ∈ rows, r = []) →
        safe_max_temp (.arr (rows.map (fun r => J.arr (r.map J.num))))
          = .error .valueErr) := by
  refine ⟨rfl, fun q => rfl, fun s => rfl, fun b => rfl, fun fs => rfl, rfl, ?_, ?_, ?_⟩
  · intro x xs
    refine ⟨xs.foldl pyMaxQ x, ?_, listMax_eq_some rfl⟩
    simp [safe_max_temp, pyMax_map_num]
  · intro r0 rest hjoin
    obtain ⟨m, hm, hmem, hbound⟩ := join_filterMap_listMax (r0 :: rest) hjoin
    refine ⟨m, ?_, hmem, hbound⟩
    have hrm := rowMaxes_map_num (r0 :: rest)
    simp only [List.map_cons] at hrm
    simp [safe_max_temp, hrm, hm]
  · intro rows hne hall
    match rows, hne with
    | r0 :: rest, _ =>
      have h0 : r0 = [] := hall r0 (List.mem_cons_self _ _)
      subst h0
      have hrm := rowMaxes_map_num ([] :: rest)
      simp only [List.map_cons, List.map_nil] at hrm
      have hfm : ([] :: rest).filterMap listMax = [] := by
        apply List.filterMap_eq_nil_iff.mpr
        intro r hr
        have : r = [] := hall r hr
        subst this
        rfl
      rw [hfm] at hrm
      simp [safe_max_temp, hrm, listMax]

/- ── C3: imagery_has_fire ── -/

theorem isFireDet_iff (d : J) :
    isFireDet d = true
      ↔ ∃ fs, d = J.obj fs ∧ lookupField fs "label" = some (J.str "fire") := by
  cases d with
  | obj fs =>
    simp only [isFireDet]
    cases hlab : lookupField fs "label" with
    | none => simp [hlab]
    | some v =>
      cases v with
      | null => simp [hlab]
      | bool b => simp [hlab]
      | num q => simp [hlab]
      | str s => simp [hlab]
      | arr xs => simp [hlab]
      | obj gs => simp [hlab]
  | null => simp [isFireDet]
  | bool b => simp [isFireDet]
  | num q => simp [isFireDet]
  | str s => simp [isFireDet]
  | arr xs => simp [isFireDet]

/-- C3 (confirmed): `fire_detected` is true iff the detections value is
    a list containing at least one dict entry whose `label` field is
    the string `"fire"`; absent/empty/non-list detections give false,
    and the extraction is total (never raises). -/
theorem c3_imagery_has_fire (dets : J) :
    (imagery_has_fire dets = true
      ↔ ∃ l fs, dets = J.arr l ∧ J.obj fs ∈ l
          ∧ lookupField fs "label" = some (J.str "fire")) := by
  constructor
  · intro h
    cases dets with
    | arr l =>
      simp only [imagery_has_fire] at h
      split at h
      · exact absurd h (by simp)
      · obtain ⟨d, hd, hfire⟩ := List.any_eq_true.mp h
        obtain ⟨fs, rfl, hlab⟩ := (isFireDet_iff d).mp hfire
        exact ⟨l, fs, rfl, hd, hlab⟩
    | null => simp [imagery_has_fire, J.truthy] at h
    | bool b => simp [imagery_has_fire, J.truthy] at h
    | num q => simp [imagery_has_fire, J.truthy] at h
    | str s => simp [imagery_has_fire, J.truthy] at h
    | obj fs => simp [imagery_has_fire, J.truthy] at h
  · rintro ⟨l, fs, rfl, hmem, hlab⟩
    have hne : l ≠ [] := List.ne_nil_of_mem hmem
    have htr : (J.arr l).truthy = true := by
      simp [J.truthy, List.isEmpty_iff, hne]
    unfold imagery_has_fire
    rw [htr]
    simp only [Bool.not_true, Bool.false_eq_true, if_false]
    apply List.any_eq_true.mpr
    exact ⟨J.obj fs, hmem, (isFireDet_iff (J.obj fs)).mpr ⟨fs, rfl, hlab⟩⟩

/- ── Inversion machinery for the Except monad and fusionBody ── -/

theorem exceptBind_ok {ε α β : Type} {x : Except ε α} {f : α → Except ε β} {r : β} :
    (x >>= f) = .ok r ↔ ∃ a, x = .ok a ∧ f a = .ok r := by
  cases x <;> simp [Bind.bind, Except.bind]

theorem exceptBind_err {ε α β : Type} {x : Except ε α} {f : α → Except ε β} {e : ε} :
    (x >>= f) = .error e ↔ x = .error e ∨ ∃ a, x = .ok a ∧ f a = .error e := by
  cases x <;> simp [Bind.bind, Except.bind]

/-- Everything `fusionBody` guarantees about a successfully produced
    record, phrased over the record's own stored fields. -/
theorem fusionBody_ok_inv {fid : ℕ} {t i : J} {trxOpt irxOpt : Option ℤ}
    {sns ens : ℤ} {rec : FusionRec}
    (h : fusionBody fid t i trxOpt irxOpt sns ens = .ok rec) :
    rec.fusion_id = fid
    ∧ rec.fusion_done_ns = ens
    ∧ rec.decision
        = (rec.max_temp.gtQ TEMP_THRESHOLD && rec.imagery_fire
            && decide (rec.dt_s ≤ TIME_WINDOW_S))
    ∧ rec.dt_s = pyAbs (((rec.thermal_tx_ns - rec.imagery_tx_ns : ℤ) : ℚ)) / 1000000000
    ∧ rec.thermal_rx_ns = orZero trxOpt
    ∧ rec.imagery_rx_ns = orZero irxOpt
    ∧ rec.thermal_net_ns = pyMaxI 0 (rec.thermal_rx_ns - rec.thermal_tx_ns)
    ∧ rec.imagery_net_ns = pyMaxI 0 (rec.imagery_rx_ns - rec.imagery_tx_ns)
    ∧ rec.fusion_proc_ns = ens - sns
    ∧ rec.e2e_ns = ens - pyMinI rec.thermal_tx_ns rec.imagery_tx_ns
    ∧ rec.e2e_ms = (rec.e2e_ns : ℚ) / 1000000
    ∧ (∃ td, dictGet t "data" .null = .ok td
        ∧ safe_max_temp td = .ok (rec.max_temp, rec.thermal_shape))
    ∧ (∃ ds, dictGet i "detections" (.arr []) = .ok ds
        ∧ rec.imagery_fire = imagery_has_fire ds
        ∧ rec.num_detections = (match ds with | .arr l => l.length | _ => 0)) := by
  simp only [fusionBody, exceptBind_ok, pure, Except.pure, Except.ok.injEq] at h
  obtain ⟨tTxRaw, h1, t_tx0, h2, iTxRaw, h3, i_tx0, h4, td, h5, ms, h6, ds, h7,
    tProcRaw, h8, tpn, h9, iProcRaw, h10, ipn, h11, tseq, h12, iseq, h13, hrec⟩ := h
  subst hrec
  refine ⟨rfl, rfl, rfl, rfl, rfl, rfl, rfl, rfl, rfl, rfl, rfl, ?_, ?_⟩
  · exact ⟨td, h5, by rw [h6]⟩
  · exact ⟨ds, h7, rfl, rfl⟩

/-- Inversion of a successful `evaluate` call. -/
theorem evaluate_success_inv {sns ens : ℤ} {s s' : Ctrl} {rec : FusionRec}
    (h : evaluate sns ens s = (s', .success rec)) :
    ∃ t i, s.last_thermal = some t ∧ s.last_imagery = some i
      ∧ t.truthy = true ∧ i.truthy = true
      ∧ fusionBody s.fusion_id t i s.last_thermal_rx_ns s.last_imagery_rx_ns sns ens
          = .ok rec
      ∧ s' = { s with fusion_id := s.fusion_id + 1,
                      csv := s.csv ++ [csvOf rec],
                      jsonl := s.jsonl ++ [rec] } := by
  unfold evaluate at h
  split at h
  · next t i hlt hli =>
    split at h
    · exact absurd (congrArg Prod.snd h) (by simp)
    · next htr =>
      simp only [Bool.or_eq_true, Bool.not_eq_true', not_or, Bool.not_eq_false,
        Bool.not_eq_true] at htr
      split at h
      · next rec2 hfb =>
        rw [Prod.mk.injEq] at h
        obtain ⟨hs', hout⟩ := h
        have : rec2 = rec := by
          have := congrArg (fun o => match o with
            | EvalOutcome.success r => some r
            | _ => none) hout
          simpa using this
        subst this
        exact ⟨t, i, hlt, hli, htr.1, htr.2, hfb, hs'.symm⟩
      · split at h <;> exact absurd (congrArg Prod.snd h) (by simp)
  · exact absurd (congrArg Prod.snd h) (by simp)

/- ── C1: the fusion decision ── -/

/-- C1 (confirmed): for every successful fusion evaluation, the emitted
    decision is exactly `(max_temp > TEMP_THRESHOLD) AND fire_detected
    AND (dt_s ≤ TIME_WINDOW_S)`, with `max_temp` and `fire_detected`
    extracted from the stored payloads; the temperature comparison is
    strict (`max_temp = TEMP_THRESHOLD` forces a false decision), the
    skew comparison is non-strict (`dt_s = TIME_WINDOW_S` still allows
    a true decision), and flipping any single conjunct to false forces
    the decision false. -/
theorem c1_decision (sns ens : ℤ) (s s' : Ctrl) (rec : FusionRec)
    (h : evaluate sns ens s = (s', .success rec)) :
    (rec.decision = true
      ↔ rec.max_temp.gtQ TEMP_THRESHOLD = true ∧ rec.imagery_fire = true
        ∧ rec.dt_s ≤ TIME_WINDOW_S)
    ∧ (rec.max_temp = .val TEMP_THRESHOLD → rec.decision = false)
    ∧ (rec.max_temp.gtQ TEMP_THRESHOLD = false → rec.decision = false)
    ∧ (rec.imagery_fire = false → rec.decision = false)
    ∧ (TIME_WINDOW_S < rec.dt_s → rec.decision = false)
    ∧ (rec.dt_s = TIME_WINDOW_S → rec.max_temp.gtQ TEMP_THRESHOLD = true →
        rec.imagery_fire = true → rec.decision = true)
    ∧ (∃ t i td ds, s.last_thermal = some t ∧ s.last_imagery = some i
        ∧ dictGet t "data" .null = .ok td
        ∧ safe_max_temp td = .ok (rec.max_temp, rec.thermal_shape)
        ∧ dictGet i "detections" (.arr []) = .ok ds
        ∧ rec.imagery_fire = imagery_has_fire ds) := by
  obtain ⟨t, i, hlt, hli, -, -, hfb, -⟩ := evaluate_success_inv h
  obtain ⟨-, -, hdec, -, -, -, -, -, -, -, -, ⟨td, htd, hsm⟩, ⟨ds, hds, hfire, -⟩⟩ :=
    fusionBody_ok_inv hfb
  refine ⟨?_, ?_, ?_, ?_, ?_, ?_, ⟨t, i, td, ds, hlt, hli, htd, hsm, hds, hfire⟩⟩
  · rw [hdec]
    simp [Bool.and_eq_true, decide_eq_true_iff, and_assoc]
  · intro hmt
    rw [hdec, hmt]
    simp [TVal.gtQ]
  · intro hmt
    rw [hdec, hmt]
    simp
  · intro hf
    rw [hdec, hf]
    simp
  · intro hlt2
    rw [hdec]
    simp [decide_eq_false_iff_not, not_le.mpr hlt2]
  · intro hdt hmt hf
    rw [hdec, hmt, hf, hdt]
    simp

/- ── C7: the derived sync gap ── -/

/-- C7 (amended): for any FusionRecord, the derived
    `sync_gap = max(0, e2e − (components))` is always ≥ 0, and
    `components + sync_gap = max(e2e, components)`; the identity
    `components + sync_gap = e2e` therefore holds exactly when the
    stored components sum to at most the stored end-to-end latency —
    which the code does not guarantee. -/
theorem c7_sync_gap (r : FusionRec) :
    0 ≤ sync_gap_ms r
    ∧ measured_ms r + sync_gap_ms r = pyMaxQ r.e2e_ms (measured_ms r)
    ∧ (measured_ms r ≤ r.e2e_ms → measured_ms r + sync_gap_ms r = r.e2e_ms) := by
  unfold sync_gap_ms pyMaxQ
  refine ⟨?_, ?_, ?_⟩
  · split <;> linarith
  · split <;> split <;> linarith
  · intro hle
    split <;> linarith

/-- C7 (counterexample): a fully well-formed evaluation in which both
    feeds see 2 s of network delay produces a record whose stored
    components sum to 2000 ms MORE than the stored e2e latency (e2e is
    measured once from the earlier tx, while both feeds' network delays
    are counted), so `components + sync_gap ≈ e2e` fails far beyond
    rounding: sync_gap clamps to 0 and the sum exceeds e2e by 2000 ms. -/
theorem c7_counterexample :
    (evaluate 3000000000 3000000001 sGoodC).2 = .success recC
    ∧ sync_gap_ms recC = 0
    ∧ measured_ms recC = recC.e2e_ms + 2000
    ∧ measured_ms recC + sync_gap_ms recC ≠ recC.e2e_ms := by
  refine ⟨by with_unfolding_all rfl, by with_unfolding_all rfl,
    by with_unfolding_all rfl, ?_⟩
  have h1 : sync_gap_ms recC = 0 := by with_unfolding_all rfl
  have h2 : measured_ms recC = recC.e2e_ms + 2000 := by with_unfolding_all rfl
  rw [h1, h2]
  intro hcontra
  have : (2000 : ℚ) = 0 := by linarith
  norm_num at this

/-- C7 witness for the amended theorem: a record whose components do
    not exceed e2e reproduces e2e exactly. -/
theorem c7_witness :
    measured_ms recZ ≤ recZ.e2e_ms
    ∧ measured_ms recZ + sync_gap_ms recZ = recZ.e2e_ms :=
  have hle : measured_ms recZ ≤ recZ.e2e_ms := le_of_eq (by with_unfolding_all rfl)
  ⟨hle, (c7_sync_gap recZ).2.2 hle⟩

/- ── C10: empty-object messages disable fusion ── -/

/-- C10 (confirmed): if a feed's most recently stored message is the
    empty JSON object `{}` — a valid, successfully parsed message —
    every fusion evaluation is a no-op: the state (both logs and
    `fusion_id` included) is returned unchanged, exactly as if that
    feed had never received a message, because `evaluate` tests the
    truthiness of the stored dict, and `{}` is falsy. -/
theorem c10_empty_object (s : Ctrl) (sns ens : ℤ) :
    (s.last_thermal = some (J.obj []) → evaluate sns ens s = (s, .noop))
    ∧ (s.last_imagery = some (J.obj []) → evaluate sns ens s = (s, .noop))
    ∧ (s.last_thermal = none → evaluate sns ens s = (s, .noop))
    ∧ (s.last_imagery = none → evaluate sns ens s = (s, .noop)) := by
  refine ⟨?_, ?_, ?_, ?_⟩
  · intro h
    unfold evaluate
    rw [h]
    cases hi : s.last_imagery with
    | none => rfl
    | some i => simp [J.truthy]
  · intro h
    unfold evaluate
    rw [h]
    cases ht : s.last_thermal with
    | none => rfl
    | some t => simp [J.truthy]
  · intro h
    unfold evaluate
    rw [h]
  · intro h
    unfold evaluate
    rw [h]
    cases ht : s.last_thermal with
    | none => rfl
    | some t => rfl

/-- C10 witness: a concrete state storing `{}` on the thermal feed is
    left untouched by `evaluate`. -/
theorem c10_witness : evaluate 3000000000 3000000001 sEmptyObjC = (sEmptyObjC, .noop) :=
  (c10_empty_object sEmptyObjC 3000000000 3000000001).1 rfl

/- ── C8: error containment at the evaluation boundary ── -/

theorem dictGet_obj_ne_err (fs : List (String × J)) (k : String) (d : J) (e : PyErr) :
    dictGet (J.obj fs) k d ≠ .error e := by
  intro h
  simp only [dictGet] at h
  cases hl : lookupField fs k <;> rw [hl] at h <;> simp at h

theorem pyInt_err {v : J} {e : PyErr} (h : pyInt v = .error e) :
    e = .typeErr ∨ e = .valueErr := by
  cases v with
  | num q => simp [pyInt] at h
  | bool b => simp [pyInt] at h
  | str s =>
    simp only [pyInt] at h
    split at h
    · exact absurd h (by simp)
    · simp only [Except.error.injEq] at h
      exact Or.inr h.symm
  | null =>
    simp only [pyInt, Except.error.injEq] at h
    exact Or.inl h.symm
  | arr xs =>
    simp only [pyInt, Except.error.injEq] at h
    exact Or.inl h.symm
  | obj fs =>
    simp only [pyInt, Except.error.injEq] at h
    exact Or.inl h.symm

theorem pyMax_err {xs : List J} {e : PyErr} (h : pyMax xs = .error e) :
    e = .typeErr ∨ e = .valueErr := by
  unfold pyMax at h
  split at h
  · simp only [Except.error.injEq] at h
    exact Or.inr h.symm
  · split at h
    · split at h
      · exact absurd h (by simp)
      · simp only [Except.error.injEq] at h
        exact Or.inr h.symm
    · simp only [Except.error.injEq] at h
      exact Or.inl h.symm

theorem rowMaxes_err {rs : List J} {e : PyErr} (h : rowMaxes rs = .error e) :
    e = .typeErr ∨ e = .valueErr := by
  induction rs with
  | nil => simp [rowMaxes] at h
  | cons r rest ih =>
    unfold rowMaxes at h
    split at h
    · split at h
      · split at h
        · next m hm =>
          cases hrm : rowMaxes rest with
          | ok ms => rw [hrm] at h; exact absurd h (by simp [Except.map])
          | error e2 =>
            rw [hrm] at h
            simp only [Except.map, Except.error.injEq] at h
            subst h
            exact ih hrm
        · next e2 he2 =>
          simp only [Except.error.injEq] at h
          subst h
          exact pyMax_err he2
      · simp only [Except.error.injEq] at h
        exact Or.inl h.symm
    · exact ih h

theorem safe_max_temp_err {v : J} {e : PyErr} (h : safe_max_temp v = .error e) :
    e = .typeErr ∨ e = .valueErr := by
  unfold safe_max_temp at h
  split at h
  · exact absurd h (by simp)
  · split at h
    · split at h
      · next e2 he2 =>
        simp only [Except.error.injEq] at h
        subst h
        exact rowMaxes_err he2
      · split at h
        · simp only [Except.error.injEq] at h
          exact Or.inr h.symm
        · exact absurd h (by simp)
    · split at h
      · next e2 he2 =>
        simp only [Except.error.injEq] at h
        subst h
        exact pyMax_err he2
      · exact absurd h (by simp)
  · exact absurd h (by simp)
  · exact absurd h (by simp)

/-- When both stored messages are JSON objects, every error raised
    inside the fusion body belongs to a class the `except` clause
    catches. -/
theorem fusionBody_obj_no_attr {fid : ℕ} {fs gs : List (String × J)}
    {trx irx : Option ℤ} {sns ens : ℤ} {e : PyErr}
    (h : fusionBody fid (.obj fs) (.obj gs) trx irx sns ens = .error e) :
    e = .typeErr ∨ e = .valueErr := by
  simp only [fusionBody, exceptBind_err, exceptBind_ok, pure, Except.pure] at h
  rcases h with h | ⟨a1, -, h⟩
  · exact absurd h (dictGet_obj_ne_err _ _ _ _)
  rcases h with h | ⟨a2, -, h⟩
  · exact pyInt_err h
  rcases h with h | ⟨a3, -, h⟩
  · exact absurd h (dictGet_obj_ne_err _ _ _ _)
  rcases h with h | ⟨a4, -, h⟩
  · exact pyInt_err h
  rcases h with h | ⟨a5, -, h⟩
  · exact absurd h (dictGet_obj_ne_err _ _ _ _)
  rcases h with h | ⟨a6, -, h⟩
  · exact safe_max_temp_err h
  rcases h with h | ⟨a7, -, h⟩
  · exact absurd h (dictGet_obj_ne_err _ _ _ _)
  rcases h with h | ⟨a8, -, h⟩
  · exact absurd h (dictGet_obj_ne_err _ _ _ _)
  rcases h with h | ⟨a9, -, h⟩
  · exact pyInt_err h
  rcases h with h | ⟨a10, -, h⟩
  · exact absurd h (dictGet_obj_ne_err _ _ _ _)
  rcases h with h | ⟨a11, -, h⟩
  · exact pyInt_err h
  rcases h with h | ⟨a12, -, h⟩
  · exact absurd h (dictGet_obj_ne_err _ _ _ _)
  rcases h with h | ⟨a13, -, h⟩
  · exact absurd h (dictGet_obj_ne_err _ _ _ _)
  · exact absurd h (by simp [pure, Except.pure])

/-- C8 (amended): when both stored messages are JSON objects, every
    error raised during the fusion evaluation is caught at the
    evaluation boundary: nothing propagates to the listener, no CSV row
    and no JSONL record is emitted for that trigger, the fusion id
    counter is unchanged, and (the evaluation being pure in its state
    argument) subsequent evaluations proceed from the same state.  The
    original claim's universal form is refuted by `c8_counterexample`:
    a stored message that is valid JSON but not an object raises an
    AttributeError, which the `except (KeyError, TypeError, ValueError)`
    clause does not catch. -/
theorem c8_caught_errors (sns ens : ℤ) (s : Ctrl) (fs gs : List (String × J))
    (ht : s.last_thermal = some (.obj fs)) (hi : s.last_imagery = some (.obj gs)) :
    (∀ e, (evaluate sns ens s).2 ≠ .uncaught e)
    ∧ (∀ e, (evaluate sns ens s).2 = .caught e →
        (evaluate sns ens s).1 = s) := by
  obtain ⟨lt, li, trx, irx, fid, csvL, jsonlL⟩ := s
  simp only at ht hi
  subst ht
  subst hi
  simp only [evaluate]
  by_cases htr : (!(J.obj fs).truthy || !(J.obj gs).truthy) = true
  · rw [if_pos htr]
    exact ⟨by simp, by simp⟩
  · rw [if_neg htr]
    cases hfb : fusionBody fid (J.obj fs) (J.obj gs) trx irx sns ens with
    | ok rec => exact ⟨by simp, by simp⟩
    | error e =>
      have hne : ¬ e = PyErr.attrErr := by
        rcases fusionBody_obj_no_attr hfb with h | h <;> subst h <;> simp
      refine ⟨?_, ?_⟩
      · intro e2
        simp [hne]
      · intro e2 _
        simp [hne]

/-- C8 (counterexample): with a stored thermal message that is valid
    JSON but not an object (`[1]` — truthy, so the evaluation
    proceeds), the very first field access raises AttributeError, which
    escapes the evaluation boundary uncaught and kills the listener
    thread.  The shared state is left with the poisonous message in
    place. -/
theorem c8_counterexample :
    (evaluate 3000000000 3000000001 sBadC).2 = .uncaught .attrErr
    ∧ (evaluate 3000000000 3000000001 sBadC).1 = sBadC := by
  constructor
  · with_unfolding_all rfl
  · with_unfolding_all rfl

/-- C8 witness for the amended theorem: a caught error (2-D payload
    with all rows empty) leaves the state untouched. -/
theorem c8_witness :
    (evaluate 0 0 sAllEmptyRowsC).2 = .caught .valueErr
    ∧ (evaluate 0 0 sAllEmptyRowsC).1 = sAllEmptyRowsC := by
  constructor
  · with_unfolding_all rfl
  · exact (c8_caught_errors 0 0 sAllEmptyRowsC [("data", .arr [.arr []])]
      [("detections", .arr [])] rfl rfl).2 .valueErr (by with_unfolding_all rfl)

/-- C1 witness: the concrete good evaluation yields decision true via
    the three conjuncts. -/
theorem c1_witness : recC.decision = true :=
  ((c1_decision 3000000000 3000000001 sGoodC sGoodAfterC recC
      (by with_unfolding_all rfl)).1).mpr
    ⟨by with_unfolding_all rfl, by with_unfolding_all rfl, by
      rw [show recC.dt_s = 0 from by with_unfolding_all rfl]
      norm_num [TIME_WINDOW_S]⟩

/-- C2 witness: the all-empty-rows branch of the amended theorem at the
    concrete grid `[[]]`. -/
theorem c2_witness :
    safe_max_temp (.arr (([] :: []).map (fun (r : List ℚ) => J.arr (r.map J.num))))
      = .error .valueErr :=
  c2_safe_max_temp.2.2.2.2.2.2.2.2 [[]] (by simp) (by simp)

/-- C3 witness: one fire-labelled detection makes `imagery_has_fire`
    true. -/
theorem c3_witness :
    imagery_has_fire (J.arr [J.obj [("label", J.str "fire")]]) = true :=
  (c3_imagery_has_fire (J.arr [J.obj [("label", J.str "fire")]])).mpr
    ⟨[J.obj [("label", J.str "fire")]], [("label", J.str "fire")], rfl,
     List.mem_singleton_self _, rfl⟩

/- ── C6: the fusion id sequence in both logs ── -/

/-- One `evaluate` call either leaves the state untouched or appends
    exactly one CSV row and one JSONL record carrying the current
    fusion id and increments the counter. -/
theorem evaluate_cases (sns ens : ℤ) (s : Ctrl) :
    (evaluate sns ens s).1 = s
    ∨ ∃ rec, (evaluate sns ens s).2 = .success rec
        ∧ (evaluate sns ens s).1
            = { s with fusion_id := s.fusion_id + 1
                       csv := s.csv ++ [csvOf rec]
                       jsonl := s.jsonl ++ [rec] }
        ∧ rec.fusion_id = s.fusion_id := by
  obtain ⟨lt, li, trx, irx, fid, csvL, jsonlL⟩ := s
  cases lt with
  | none => left; simp [evaluate]
  | some t =>
    cases li with
    | none => left; simp [evaluate]
    | some i =>
      simp only [evaluate]
      by_cases htr : (!t.truthy || !i.truthy) = true
      · rw [if_pos htr]
        left
        rfl
      · rw [if_neg htr]
        cases hfb : fusionBody fid t i trx irx sns ens with
        | ok rec => exact Or.inr ⟨rec, rfl, rfl, (fusionBody_ok_inv hfb).1⟩
        | error e =>
          left
          split
          · simp_all
          · split <;> rfl

theorem evaluate_good (sns ens : ℤ) (s : Ctrl)
    (h1 : s.csv.map CsvRow.fusion_id = List.range s.fusion_id)
    (h2 : s.jsonl.map FusionRec.fusion_id = List.range s.fusion_id) :
    ((evaluate sns ens s).1.csv.map CsvRow.fusion_id
        = List.range (evaluate sns ens s).1.fusion_id)
    ∧ ((evaluate sns ens s).1.jsonl.map FusionRec.fusion_id
        = List.range (evaluate sns ens s).1.fusion_id) := by
  rcases evaluate_cases sns ens s with h | ⟨rec, -, hst, hid⟩
  · rw [h]
    exact ⟨h1, h2⟩
  · rw [hst]
    constructor
    · simp only [List.map_append, h1, List.range_succ]
      simp [csvOf, hid]
    · simp only [List.map_append, h2, List.range_succ]
      simp [hid]

theorem evaluate_extends (sns ens : ℤ) (s : Ctrl) :
    ∃ t1 t2, (evaluate sns ens s).1.csv = s.csv ++ t1
      ∧ (evaluate sns ens s).1.jsonl = s.jsonl ++ t2 := by
  rcases evaluate_cases sns ens s with h | ⟨rec, -, hst, -⟩
  · exact ⟨[], [], by simp [h], by simp [h]⟩
  · exact ⟨[csvOf rec], [rec], by rw [hst], by rw [hst]⟩

theorem step_good (s : Ctrl) (e : Event)
    (h1 : s.csv.map CsvRow.fusion_id = List.range s.fusion_id)
    (h2 : s.jsonl.map FusionRec.fusion_id = List.range s.fusion_id) :
    ((step s e).1.csv.map CsvRow.fusion_id = List.range (step s e).1.fusion_id)
    ∧ ((step s e).1.jsonl.map FusionRec.fusion_id = List.range (step s e).1.fusion_id) := by
  cases e with
  | thermalMsg msg rx sns ens => exact evaluate_good sns ens _ h1 h2
  | imageryMsg msg rx sns ens => exact evaluate_good sns ens _ h1 h2

theorem step_extends (s : Ctrl) (e : Event) :
    ∃ t1 t2, (step s e).1.csv = s.csv ++ t1 ∧ (step s e).1.jsonl = s.jsonl ++ t2 := by
  cases e with
  | thermalMsg msg rx sns ens => exact evaluate_extends sns ens _
  | imageryMsg msg rx sns ens => exact evaluate_extends sns ens _

theorem run_good (events : List Event) (s : Ctrl)
    (h1 : s.csv.map CsvRow.fusion_id = List.range s.fusion_id)
    (h2 : s.jsonl.map FusionRec.fusion_id = List.range s.fusion_id) :
    ((run s events).csv.map CsvRow.fusion_id = List.range (run s events).fusion_id)
    ∧ ((run s events).jsonl.map FusionRec.fusion_id = List.range (run s events).fusion_id) := by
  induction events generalizing s with
  | nil => exact ⟨h1, h2⟩
  | cons e es ih =>
    obtain ⟨g1, g2⟩ := step_good s e h1 h2
    exact ih (step s e).1 g1 g2

theorem run_extends (events : List Event) (s : Ctrl) :
    ∃ t1 t2, (run s events).csv = s.csv ++ t1
      ∧ (run s events).jsonl = s.jsonl ++ t2 := by
  induction events generalizing s with
  | nil => exact ⟨[], [], by simp [run], by simp [run]⟩
  | cons e es ih =>
    obtain ⟨t1, t2, ht1, ht2⟩ := step_extends s e
    obtain ⟨u1, u2, hu1, hu2⟩ := ih (step s e).1
    refine ⟨t1 ++ u1, t2 ++ u2, ?_, ?_⟩
    · show (run (step s e).1 es).csv = s.csv ++ (t1 ++ u1)
      rw [hu1, ht1, List.append_assoc]
    · show (run (step s e).1 es).jsonl = s.jsonl ++ (t2 ++ u2)
      rw [hu2, ht2, List.append_assoc]

theorem run_append (s : Ctrl) (es fs : List Event) :
    run s (es ++ fs) = run (run s es) fs := by
  induction es generalizing s with
  | nil => rfl
  | cons e es ih => exact ih (step s e).1

/-- C6 (confirmed): over every trace of message-arrival events from
    process start, the fusion ids written to the CSV log and to the
    JSONL log both equal `0, 1, …, n−1` (strictly increasing, gapless,
    starting at 0, identical in the two logs); already-written entries
    are never modified by later events (the logs only grow by suffix);
    and each successful evaluation appends one record with the current
    fusion id to BOTH logs and increments the counter by one. -/
theorem c6_fusion_ids (events : List Event) :
    ((run initCtrl events).csv.map CsvRow.fusion_id
        = List.range (run initCtrl events).fusion_id)
    ∧ ((run initCtrl events).jsonl.map FusionRec.fusion_id
        = List.range (run initCtrl events).fusion_id)
    ∧ (∀ more, ∃ t1 t2,
        (run initCtrl (events ++ more)).csv = (run initCtrl events).csv ++ t1
        ∧ (run initCtrl (events ++ more)).jsonl = (run initCtrl events).jsonl ++ t2)
    ∧ (∀ (sns ens : ℤ) (s s' : Ctrl) (rec : FusionRec),
        evaluate sns ens s = (s', .success rec) →
        rec.fusion_id = s.fusion_id ∧ (csvOf rec).fusion_id = s.fusion_id
        ∧ s'.csv = s.csv ++ [csvOf rec] ∧ s'.jsonl = s.jsonl ++ [rec]
        ∧ s'.fusion_id = s.fusion_id + 1) := by
  obtain ⟨g1, g2⟩ := run_good events initCtrl rfl rfl
  refine ⟨g1, g2, ?_, ?_⟩
  · intro more
    rw [run_append]
    exact run_extends more (run initCtrl events)
  · intro sns ens s s' rec h
    obtain ⟨t, i, -, -, -, -, hfb, hs'⟩ := evaluate_success_inv h
    have hid := (fusionBody_ok_inv hfb).1
    subst hs'
    exact ⟨hid, hid, rfl, rfl, rfl⟩

/-- C6 witness: the concrete good evaluation appends fusion id 0 to
    both logs and bumps the counter to 1. -/
theorem c6_witness :
    recC.fusion_id = sGoodC.fusion_id
    ∧ (csvOf recC).fusion_id = sGoodC.fusion_id
    ∧ sGoodAfterC.csv = sGoodC.csv ++ [csvOf recC]
    ∧ sGoodAfterC.jsonl = sGoodC.jsonl ++ [recC]
    ∧ sGoodAfterC.fusion_id = sGoodC.fusion_id + 1 :=
  (c6_fusion_ids []).2.2.2 3000000000 3000000001 sGoodC sGoodAfterC recC
    (by with_unfolding_all rfl)

/- ── C4: the degraded-stop condition ── -/

theorem dropExceeds_iff (o : Option ℚ) :
    dropExceeds o = true ↔ ∃ d, o = some d ∧ DROP_STOP_THRESHOLD < d := by
  cases o with
  | none => simp [dropExceeds]
  | some x => simp [dropExceeds]

theorem monitor_enforce_spec (tUp : Bool) (td : Option ℚ) (iUp : Bool) (idp : Option ℚ) :
    (monitor_enforce tUp td iUp idp ≠ []
      ↔ (tUp = true ∧ dropExceeds td = true) ∨ (iUp = true ∧ dropExceeds idp = true))
    ∧ (monitor_enforce tUp td iUp idp ≠ [] →
        monitor_enforce tUp td iUp idp = [.closeLog, .sysExitCall 2]) := by
  unfold monitor_enforce
  split_ifs with h1 h2
  · simp only [Bool.and_eq_true] at h1
    exact ⟨by simp [h1], fun _ => rfl⟩
  · simp only [Bool.and_eq_true] at h2
    exact ⟨by simp [h2], fun _ => rfl⟩
  · constructor
    · constructor
      · intro hco
        exact absurd rfl hco
      · rintro (⟨ha, hb⟩ | ⟨ha, hb⟩)
        · exact (h1 (by simp [ha, hb])).elim
        · exact (h2 (by simp [ha, hb])).elim
    · intro hco
      exact absurd rfl hco

theorem drop_some_started {arr : List ℚ} {hz : ℚ} {fsn : Option ℚ} {now w d : ℚ}
    (h : (stream_drop_stats arr hz fsn now w).1.1 = some d) : fsn ≠ none := by
  cases fsn with
  | none => simp [stream_drop_stats] at h
  | some fs => simp

/-- Supporting lemma: on a monitor tick, the degraded-stop path (close
    the log, then call `sys.exit(2)` in the monitoring thread) is taken
    iff some feed's listener bound (`server_up`) AND that feed has a
    drop estimate (which requires that it has received at least one
    message, i.e. `first_seen` is set) strictly exceeding the stop
    threshold; a drop rate exactly equal to the threshold never
    triggers it; one above it (with the server up) does. -/
theorem monitor_stop_path_iff (tm im : FeedMon) (now : ℚ) :
    (monitor_tick tm im now ≠ []
      ↔ (tm.server_up = true
          ∧ (∃ d, (stream_drop_stats tm.arrivals EXPECTED_THERMAL_HZ tm.first_seen_s
              now MONITOR_WINDOW_S).1.1 = some d ∧ DROP_STOP_THRESHOLD < d))
        ∨ (im.server_up = true
          ∧ (∃ d, (stream_drop_stats im.arrivals EXPECTED_IMAGERY_HZ im.first_seen_s
              now MONITOR_WINDOW_S).1.1 = some d ∧ DROP_STOP_THRESHOLD < d)))
    ∧ (∀ (arr : List ℚ) (hz : ℚ) (fsn : Option ℚ) (w d : ℚ),
        (stream_drop_stats arr hz fsn now w).1.1 = some d → fsn ≠ none)
    ∧ (monitor_tick tm im now ≠ [] →
        monitor_tick tm im now = [.closeLog, .sysExitCall 2])
    ∧ (∀ tUp iUp : Bool,
        monitor_enforce tUp (some DROP_STOP_THRESHOLD) iUp (some DROP_STOP_THRESHOLD) = [])
    ∧ (∀ d : ℚ, DROP_STOP_THRESHOLD < d →
        monitor_enforce true (some d) false none = [.closeLog, .sysExitCall 2]) := by
  have ht : monitor_tick tm im now
      = monitor_enforce tm.server_up
          (stream_drop_stats tm.arrivals EXPECTED_THERMAL_HZ tm.first_seen_s
            now MONITOR_WINDOW_S).1.1
          im.server_up
          (stream_drop_stats im.arrivals EXPECTED_IMAGERY_HZ im.first_seen_s
            now MONITOR_WINDOW_S).1.1 := rfl
  refine ⟨?_, ?_, ?_, ?_, ?_⟩
  · rw [ht, (monitor_enforce_spec _ _ _ _).1]
    simp [dropExceeds_iff]
  · intro arr hz fsn w d h
    exact drop_some_started h
  · rw [ht]
    exact (monitor_enforce_spec _ _ _ _).2
  · intro tUp iUp
    unfold monitor_enforce
    simp [dropExceeds]
  · intro d hd
    unfold monitor_enforce
    simp [dropExceeds, hd]

/-- C4 (code bug): the claim — and the spec (§4.3, §6 exit codes) —
    require monitor-driven PROCESS termination with a distinguished
    non-zero exit status.  The code does take the stop path at the
    failing input below (a bound, started thermal feed at 90 % drop,
    above the 50 % threshold): it closes the log and calls
    `sys.exit(2)`.  But `monitoring_thread` runs in a daemon thread,
    where `SystemExit` only terminates that thread: on NO tick does the
    process exit or produce exit status 2 (third conjunct), although
    the very same effect list would exit the process with status 2 had
    it run on the main thread (last conjunct).  So the code contradicts
    the claimed fail-fast behaviour: the claim is right and the code is
    wrong. -/
theorem c4_daemon_exit_bug :
    monitor_tick tMonC iMonC 5 = [Effect.closeLog, Effect.sysExitCall 2]
    ∧ monitorInMainThread = false
    ∧ (∀ (tm im : FeedMon) (now : ℚ),
        exitsProcess monitorInMainThread (monitor_tick tm im now) = none)
    ∧ exitsProcess true (monitor_tick tMonC iMonC 5) = some 2 := by
  refine ⟨by with_unfolding_all rfl, rfl, fun tm im now => rfl,
    by with_unfolding_all rfl⟩

/- ── C5: the drop-rate computation ── -/

theorem clamp01_bounds (x : ℚ) : 0 ≤ clamp01 x ∧ clamp01 x ≤ 1 := by
  unfold clamp01
  split_ifs <;> constructor <;> linarith

theorem prune_sorted (arr : List ℚ) (now w : ℚ) (hs : List.Sorted (· ≤ ·) arr) :
    prune_old arr now w = arr.filter (fun a => decide (now - w ≤ a)) := by
  induction arr with
  | nil => rfl
  | cons a l ih =>
    rw [List.sorted_cons] at hs
    obtain ⟨hal, hl⟩ := hs
    by_cases h : a < now - w
    · simp only [prune_old, List.dropWhile_cons, List.filter_cons, decide_eq_true_eq]
      rw [if_pos h, if_neg (not_le.mpr h)]
      exact ih hl
    · have hka : now - w ≤ a := not_lt.mp h
      have hfl : l.filter (fun x => decide (now - w ≤ x)) = l :=
        List.filter_eq_self.mpr (fun x hx => by simp [le_trans hka (hal x hx)])
      simp only [prune_old, List.dropWhile_cons, List.filter_cons, decide_eq_true_eq]
      rw [if_neg h, if_pos hka, hfl]

/-- C5 (amended): a feed with no message ever (`first_seen = None`) is
    reported "not started" with no drop-rate value and never
    contributes to the stop decision; otherwise arrivals older than the
    trailing window are pruned (for chronologically ordered arrivals
    this keeps exactly the timestamps within the window), survivors are
    counted as received, the expected count is
    `expected_rate_hz × effective_window` where
    `effective_window = min(window_seconds, now − first_seen)` — NOT
    `expected_rate_hz × window_seconds` as the claim states — and the
    reported drop rate is `clamp01(1 − received/expected)`, a value in
    [0, 1]. -/
theorem c5_drop_stats :
    (∀ (arr : List ℚ) (hz now w : ℚ),
        stream_drop_stats arr hz none now w = ((none, 0, 0), arr))
    ∧ (∀ (tUp iUp : Bool) (idp : Option ℚ),
        monitor_enforce tUp none iUp idp = monitor_enforce false none iUp idp)
    ∧ (∀ (arr : List ℚ) (hz fs now w : ℚ),
        0 < pyMinQ w (pyMaxQ 0 (now - fs)) →
        0 < hz * pyMinQ w (pyMaxQ 0 (now - fs)) →
        stream_drop_stats arr hz (some fs) now w
          = ((some (clamp01 (1 - ((prune_old arr now w).length : ℚ)
                / (hz * pyMinQ w (pyMaxQ 0 (now - fs))))),
              ((prune_old arr now w).length : ℚ),
              hz * pyMinQ w (pyMaxQ 0 (now - fs))),
             prune_old arr now w))
    ∧ (∀ (arr : List ℚ) (now w : ℚ), List.Sorted (· ≤ ·) arr →
        prune_old arr now w = arr.filter (fun a => decide (now - w ≤ a)))
    ∧ (∀ (arr : List ℚ) (hz : ℚ) (fsn : Option ℚ) (now w d : ℚ),
        (stream_drop_stats arr hz fsn now w).1.1 = some d → 0 ≤ d ∧ d ≤ 1) := by
  refine ⟨fun arr hz now w => rfl, ?_, ?_, prune_sorted, ?_⟩
  · intro tUp iUp idp
    unfold monitor_enforce
    simp [dropExceeds]
  · intro arr hz fs now w h1 h2
    simp only [stream_drop_stats]
    rw [if_neg (not_le.mpr h1), if_neg (not_le.mpr h2)]
  · intro arr hz fsn now w d h
    cases fsn with
    | none => simp [stream_drop_stats] at h
    | some fs =>
      simp only [stream_drop_stats] at h
      split_ifs at h with h1 h2
      simp only [Option.some.injEq] at h
      subst h
      exact clamp01_bounds _

/-- C5 (counterexample): a feed first seen at t = 0 s, ticked at
    t = 5 s with window 10 s and expected rate 2 Hz, one arrival
    surviving the prune: the code reports expected_count = 10
    (2 Hz × 5 s effective window) and drop = 9/10, while the claim's
    formula `expected = expected_rate_hz × window_seconds` would give
    expected = 20 and drop = 19/20. -/
theorem c5_counterexample :
    stream_drop_stats [4] 2 (some 0) 5 10 = ((some (9/10), 1, 10), [4])
    ∧ ((9 : ℚ)/10, (1 : ℚ), (10 : ℚ))
        ≠ (clamp01 (1 - 1 / (2 * 10)), (1 : ℚ), (2 : ℚ) * 10) := by
  constructor
  · with_unfolding_all rfl
  · intro h
    have h3 : (10 : ℚ) = 2 * 10 := congrArg (fun p => p.2.2) h
    norm_num at h3

/-- C5 witness: the amended formula evaluated at the counterexample's
    input. -/
theorem c5_witness :
    stream_drop_stats [4] 2 (some 0) 5 10
      = ((some (clamp01 (1 - ((prune_old [4] 5 10).length : ℚ)
            / (2 * pyMinQ 10 (pyMaxQ 0 (5 - 0))))),
          ((prune_old [4] 5 10).length : ℚ), 2 * pyMinQ 10 (pyMaxQ 0 (5 - 0))),
         prune_old [4] 5 10) :=
  c5_drop_stats.2.2.1 [4] 2 0 5 10
    (by rw [show pyMinQ 10 (pyMaxQ 0 (5 - 0)) = 5 from by with_unfolding_all rfl]
        norm_num)
    (by rw [show pyMinQ 10 (pyMaxQ 0 (5 - 0)) = 5 from by with_unfolding_all rfl]
        norm_num)

/- ── C9: best-effort line framing ── -/

theorem splitFirstNL_none_iff (buf : List Char) :
    splitFirstNL buf = none ↔ '\n' ∉ buf := by
  induction buf with
  | nil => simp [splitFirstNL]
  | cons c cs ih =>
    by_cases hc : c = '\n'
    · subst hc
      simp [splitFirstNL]
    · simp [splitFirstNL, hc, Option.map_eq_none', ih]
      exact fun _ he => hc he.symm

theorem splitFirstNL_append_line {l : List Char} (r : List Char) (h : '\n' ∉ l) :
    splitFirstNL (l ++ '\n' :: r) = some (l, r) := by
  induction l with
  | nil => simp [splitFirstNL]
  | cons c l' ih =>
    have hc : ¬ c = '\n' := fun he => h (he ▸ List.mem_cons_self c l')
    have hl' : '\n' ∉ l' := fun hm => h (List.mem_cons_of_mem c hm)
    simp [splitFirstNL, hc, ih hl']

theorem drain_none {parse : List Char → Option J} {buf : List Char}
    (h : splitFirstNL buf = none) : drain parse buf = (buf, []) := by
  rw [drain, h]

theorem drain_some {parse : List Char → Option J} {buf line rest : List Char}
    (h : splitFirstNL buf = some (line, rest)) :
    drain parse buf
      = ((drain parse rest).1, (lineMsg parse line).toList ++ (drain parse rest).2) := by
  rw [drain, h]

theorem drain_buf_no_nl (parse : List Char → Option J) (buf : List Char) :
    '\n' ∉ (drain parse buf).1 := by
  cases h : splitFirstNL buf with
  | none =>
    rw [drain_none h]
    exact (splitFirstNL_none_iff buf).mp h
  | some lr =>
    obtain ⟨line, rest⟩ := lr
    rw [drain_some h]
    exact drain_buf_no_nl parse rest
termination_by buf.length
decreasing_by exact splitFirstNL_length h

theorem drain_unlines (parse : List Char → Option J) (ls : List (List Char))
    (h : ∀ l ∈ ls, '\n' ∉ l) :
    drain parse ((ls.map (fun l => l ++ ['\n'])).flatten)
      = ([], ls.filterMap (lineMsg parse)) := by
  induction ls with
  | nil =>
    simp only [List.map_nil, List.flatten_nil, List.filterMap_nil]
    exact drain_none rfl
  | cons l rest ih =>
    have hl : '\n' ∉ l := h l (List.mem_cons_self l rest)
    have hrest : ∀ x ∈ rest, '\n' ∉ x := fun x hx => h x (List.mem_cons_of_mem l hx)
    simp only [List.map_cons, List.flatten_cons]
    rw [show (l ++ ['\n']) ++ (rest.map (fun l => l ++ ['\n'])).flatten
        = l ++ '\n' :: (rest.map (fun l => l ++ ['\n'])).flatten by simp]
    rw [drain_some (splitFirstNL_append_line _ hl), ih hrest]
    cases hlm : lineMsg parse l <;> simp [List.filterMap_cons, hlm]

theorem drain_append (parse : List Char → Option J) (a b : List Char) :
    drain parse (a ++ b)
      = ((drain parse ((drain parse a).1 ++ b)).1,
         (drain parse a).2 ++ (drain parse ((drain parse a).1 ++ b)).2) := by
  cases h : splitFirstNL a with
  | none =>
    rw [drain_none h]
    simp
  | some lr =>
    obtain ⟨line, rest⟩ := lr
    obtain ⟨ha, hnin⟩ := splitFirstNL_some h
    have h2 : splitFirstNL (a ++ b) = some (line, rest ++ b) := by
      rw [ha, show (line ++ '\n' :: rest) ++ b = line ++ '\n' :: (rest ++ b) by simp]
      exact splitFirstNL_append_line _ hnin
    rw [drain_some h2, drain_some h, drain_append parse rest b]
    simp [List.append_assoc]
termination_by a.length
decreasing_by exact splitFirstNL_length h

theorem recvChunks_drain (parse : List Char → Option J) (chunks : List (List Char)) :
    ∀ (buf : List Char), '\n' ∉ buf →
      recvChunks parse buf chunks = drain parse (buf ++ chunks.flatten) := by
  induction chunks with
  | nil =>
    intro buf h
    simp only [recvChunks, List.flatten_nil, List.append_nil]
    rw [drain_none ((splitFirstNL_none_iff buf).mpr h)]
  | cons c cs ih =>
    intro buf h
    simp only [recvChunks, List.flatten_cons]
    rw [ih (drain parse (buf ++ c)).1 (drain_buf_no_nl parse _)]
    rw [show buf ++ (c ++ cs.flatten) = (buf ++ c) ++ cs.flatten by simp]
    rw [drain_append parse (buf ++ c) cs.flatten]

/-- C9 (confirmed): over any chunking of a connection byte stream whose
    complete lines are `ls1 ++ [bad] ++ ls2`, where `bad` is a complete
    non-empty line that fails to parse, the malformed line is silently
    discarded: the read loop keeps going on the same connection, every
    well-formed line before and after it is parsed and delivered in
    order, and the n-th delivered message is timestamped with the n-th
    clock reading (`utc_ns()` runs once per delivery). -/
theorem c9_malformed_line (parse : List Char → Option J) (clock : ℕ → ℤ)
    (chunks ls1 ls2 : List (List Char)) (bad : List Char)
    (hflat : chunks.flatten = ((ls1 ++ bad :: ls2).map (fun l => l ++ ['\n'])).flatten)
    (hnl : ∀ l ∈ ls1 ++ bad :: ls2, '\n' ∉ l)
    (hbadne : stripChars bad ≠ [])
    (hbad : parse (stripChars bad) = none) :
    (recvChunks parse [] chunks).2
        = ls1.filterMap (lineMsg parse) ++ ls2.filterMap (lineMsg parse)
    ∧ recvDelivered parse clock chunks
        = ((ls1.filterMap (lineMsg parse) ++ ls2.filterMap (lineMsg parse)).enum).map
            (fun p => (p.2, clock p.1)) := by
  have hbadmsg : lineMsg parse bad = none := by
    unfold lineMsg
    rw [if_neg (by simpa [List.isEmpty_iff] using hbadne), hbad]
  have hmain : (recvChunks parse [] chunks).2
      = ls1.filterMap (lineMsg parse) ++ ls2.filterMap (lineMsg parse) := by
    rw [recvChunks_drain parse chunks [] (by simp), List.nil_append, hflat,
      drain_unlines parse _ hnl]
    rw [List.filterMap_append, List.filterMap_cons, hbadmsg]
  exact ⟨hmain, by unfold recvDelivered; rw [hmain]⟩

/-- C9 witness: the stream "ok\nbad\nok\n" chunked mid-line delivers
    exactly the two well-formed messages, timestamped 0 and 1. -/
theorem c9_witness :
    recvDelivered parseC (fun n => (n : ℤ)) chunksC = [(J.num 1, 0), (J.num 1, 1)] :=
  ((c9_malformed_line parseC (fun n => (n : ℤ)) chunksC [['o', 'k']] [['o', 'k']]
      ['b', 'a', 'd'] (by with_unfolding_all rfl) (by decide) (by decide)
      (by with_unfolding_all rfl)).2).trans (by with_unfolding_all rfl)

end WildfireSim
